import Mathlib

/-!
Shallow embedding of the skycap repository (quartzjer/skycap), covering the
parts of `src/timeline.py` and `src/cap_chat.py` that the claims talk about:

* the `Timeline` provider: post index construction, page summaries, post
  detail lookup (`timeline.py`);
* `ChatStreaming.execute_function` and the outbound messages produced by
  `ChatStreaming.on_message` for the event kinds the claims mention
  (`cap_chat.py`);
* the `AudioPlayer` queue/flush/playback-worker interaction, modelled as a
  small labelled transition system whose atomic steps match the lock
  granularity of the Python code (`flush` runs entirely under `self.lock`,
  the worker's `stream.write` runs under the same lock, the worker's
  `audio_queue.get` and `play_audio`'s `audio_queue.put` run outside it).

External libraries are abstracted: `humanize.naturaltime` composed with the
`datetime` parsing of `created_at` is passed in as an opaque string-to-string
function `nt`; base64-decoded audio bytes are identified with the payload they
decode from; PCM chunks are identified by natural-number tags.
-/

namespace Skycap

/-- `feed_view.post.author` fields used by the formatters. -/
structure Author where
  handle : String
  display_name : String
  deriving Repr, DecidableEq

/-- `feed_view.post.record` fields used by the formatters.  `text` models
Python's possibly-falsy `record.text`: the empty string stands for a missing
or empty text. -/
structure PostRecord where
  text : String
  created_at : String
  deriving Repr, DecidableEq

/-- The embed variants that `Timeline.format_embed_info` distinguishes by
`py_type`.  For images, each element carries the image's optional `alt`
attribute (`none` models a missing attribute, `some ""` an empty one). -/
inductive EmbedView where
  | images (alts : List (Option String))
  | recordView (quoted : Option String)
  | externalView (title : String)
  | video (mime_type : String)
  | otherEmbed
  deriving Repr, DecidableEq

/-- `feed_view.post` fields used by `timeline.py`. -/
structure Post where
  cid : String
  uri : String
  author : Author
  record : PostRecord
  like_count : Nat
  repost_count : Nat
  reply_count : Nat
  quote_count : Nat
  embed : Option EmbedView
  deriving Repr, DecidableEq

/-- One timeline entry.  `reason_by` is `some handle` exactly when
`hasattr(feed_view.reason, 'by')` holds in the source, i.e. the entry is a
repost by `handle`. -/
structure FeedView where
  post : Post
  reason_by : Option String
  deriving Repr, DecidableEq

/-- The mutable state of a `Timeline` object that the claims touch:
`self.timeline`, `self.post_index` (an association list modelling the dict;
its keys are distinct, so first-match lookup agrees with the dict) and
`self.initialized`.  `page_size` is the constant 10 from `__init__`. -/
structure TimelineState where
  timeline : List FeedView
  post_index : List (Int × String × String)
  initialized : Bool
  deriving Repr, DecidableEq

/-- `dict.get(key)` on the post-index association list. -/
def indexGet (idx : List (Int × String × String)) (n : Int) : Option (String × String) :=
  match idx with
  | [] => none
  | (m, cid, uri) :: rest => if n = m then some (cid, uri) else indexGet rest n

/-- `args.get(key, default)` on a JSON argument dict whose values are
integers (the only value type the two declared tools use). -/
def dictGetD (args : List (String × Int)) (key : String) (dflt : Int) : Int :=
  match args with
  | [] => dflt
  | (k, v) :: rest => if key = k then v else dictGetD rest key dflt

/-- `Timeline.build_post_index`: maps `idx + 1` to the post's `cid`/`uri`
for each position `idx` of the timeline. -/
def build_post_index (tl : List FeedView) : List (Int × String × String) :=
  tl.enum.map (fun p => ((p.1 : Int) + 1, p.2.post.cid, p.2.post.uri))

/-- The `Timeline` state right after a successful `initialize()` (which runs
`fetch_timeline`, storing the feed and building the post index). -/
def initializedState (feed : List FeedView) : TimelineState :=
  { timeline := feed, post_index := build_post_index feed, initialized := true }

/-- `Timeline.find_feed_view`: index lookup, then first feed view whose
post `cid` matches. -/
def find_feed_view (s : TimelineState) (post_number : Int) : Option FeedView :=
  match indexGet s.post_index post_number with
  | none => none
  | some (cid, _) => s.timeline.find? (fun fv => fv.post.cid == cid)

/-- Python's resolution of one slice bound `i` against a list of length
`len`: negative bounds are shifted by `len`, then clamped into `[0, len]`. -/
def pyBound (len : Nat) (i : Int) : Nat :=
  let j := if i < 0 then i + len else i
  if j < 0 then 0 else if j > (len : Int) then len else j.toNat

/-- Python's `l[start:stop]` for integer bounds. -/
def pySlice {α : Type} (l : List α) (start stop : Int) : List α :=
  let s := pyBound l.length start
  let e := pyBound l.length stop
  (l.drop s).take (e - s)

/-- `record.text or '(no text content)'` followed by newline flattening. -/
def textContent (r : PostRecord) : String :=
  (if r.text = "" then "(no text content)" else r.text).replace "\n" " "

/-- `Timeline.get_post_image_alt_texts`: the non-empty `alt` attributes of an
images embed, in order. -/
def get_post_image_alt_texts (post : Post) : List String :=
  match post.embed with
  | some (EmbedView.images alts) =>
      alts.filterMap (fun a =>
        match a with
        | some s => if s = "" then none else some s
        | none => none)
  | _ => []

/-- `Timeline.format_embed_info`. -/
def format_embed_info (post : Post) : Option String :=
  match post.embed with
  | none => none
  | some (EmbedView.images alts) =>
      let alt_texts := get_post_image_alt_texts post
      let n := alts.length
      let image_info := s!"📷 {n} image(s)"
      if alt_texts.isEmpty then some image_info
      else
        some (image_info ++ "\n" ++
          String.intercalate "\n" (alt_texts.map (fun alt => s!"└─ Alt: {alt}")))
  | some (EmbedView.recordView quoted) =>
      match quoted with
      | some t =>
          let quoted_text := t.take 100
          some s!"💬 Quoted: {quoted_text}..."
      | none => none
  | some (EmbedView.externalView title) => some s!"🔗 Link: {title}"
  | some (EmbedView.video mime) => some s!"🎥 Video: {mime}"
  | some EmbedView.otherEmbed => none

/-- `Timeline.format_post_content`.  `nt` abstracts the
`humanize.naturaltime(datetime.now() - fromisoformat(created_at))` pipeline. -/
def format_post_content (nt : String → String) (post : Post) (indent_level : Nat) :
    List String :=
  let indent := String.join (List.replicate indent_level "    ")
  let created_str := nt post.record.created_at
  let text := textContent post.record
  let handle := post.author.handle
  let dname := post.author.display_name
  let post_line := s!"{indent}[@{handle}] {dname} - {text}"
  let post_line :=
    match format_embed_info post with
    | some embed_info => post_line ++ s!" | {embed_info}"
    | none => post_line
  let lc := post.like_count
  let rc := post.repost_count
  let rpc := post.reply_count
  let qc := post.quote_count
  let post_line := post_line ++ s!" | 👍 {lc} 🔄 {rc} 💬 {rpc} 📝 {qc} • {created_str}"
  [post_line]

/-- `Timeline.format_detailed_post`. -/
def format_detailed_post (nt : String → String) (fv : FeedView) : List String :=
  let rule := String.mk (List.replicate 80 '-')
  match fv.reason_by with
  | some h => (s!"🔄 Reposted by @{h}" :: format_post_content nt fv.post 1) ++ [rule]
  | none => format_post_content nt fv.post 0 ++ [rule]

/-- `Timeline.format_minimal_post`. -/
def format_minimal_post (nt : String → String) (fv : FeedView) (post_number : Int) :
    String :=
  let text := (textContent fv.post.record).take 50
  let created_str := nt fv.post.record.created_at
  let dname := fv.post.author.display_name
  s!"{post_number}. {dname} - {text}... • {created_str}"

/-- `Timeline.get_post_detail`.  The `Except` error is the exception raised
when the timeline is not initialized. -/
def get_post_detail (nt : String → String) (s : TimelineState) (post_number : Int) :
    Except String String :=
  if s.initialized = false then
    Except.error "Timeline not initialized. Call 'initialize()' first."
  else
    match find_feed_view s post_number with
    | none => Except.ok s!"No post found with number {post_number}."
    | some fv => Except.ok (String.intercalate "\n" (format_detailed_post nt fv))

/-- The summary lines built by `Timeline.get_minimal_posts` before joining:
`enumerate(self.timeline[start:end], start=start)` with
`post_number = idx + 1`. -/
def minimal_lines (nt : String → String) (s : TimelineState) (page : Int) :
    List String :=
  let start := (page - 1) * 10
  let posts := pySlice s.timeline start (start + 10)
  posts.enum.map (fun p => format_minimal_post nt p.2 (start + (p.1 : Int) + 1))

/-- `Timeline.get_minimal_posts`. -/
def get_minimal_posts (nt : String → String) (s : TimelineState) (page : Int) :
    Except String String :=
  if s.initialized = false then
    Except.error "Timeline not initialized. Call 'initialize()' first."
  else
    Except.ok (String.intercalate "\n" (minimal_lines nt s page))

/-- The `{"status": ..., "message": ...}` dict that
`ChatStreaming.execute_function` returns. -/
structure FuncResult where
  status : String
  message : String
  deriving Repr, DecidableEq

/-- `ChatStreaming.execute_function`.  The surrounding `try/except` is
modelled by catching the `Except.error` of the timeline calls; the function
itself is total, i.e. never raises. -/
def execute_function (nt : String → String) (tl : TimelineState)
    (function_name : String) (args : List (String × Int)) : FuncResult :=
  if function_name = "get_page_summary" then
    let page := dictGetD args "page" 1
    match get_minimal_posts nt tl page with
    | Except.ok m => { status := "success", message := m }
    | Except.error e => { status := "error", message := e }
  else if function_name = "get_post_detail" then
    let post_number := dictGetD args "post_number" 1
    match get_post_detail nt tl post_number with
    | Except.ok m => { status := "success", message := m }
    | Except.error e => { status := "error", message := e }
  else
    { status := "error", message := s!"Unknown function: {function_name}" }

/-- The inbound events `ChatStreaming.on_message` distinguishes.  For
`function_call_arguments_done`, `arguments` is `some args` when
`json.loads(arguments)` succeeds and `none` when it raises (the outer
`except` then swallows the exception). -/
inductive InEvent where
  | speech_started
  | function_call_arguments_done (name : String)
      (arguments : Option (List (String × Int))) (call_id : String)
  | audio_delta (delta : String)
  | audio_transcript_done (transcript : String)
  | output_item_added
  | errorEvent
  | otherEvent (t : String)
  deriving Repr, DecidableEq

/-- The outbound protocol messages the handler can send on the socket. -/
inductive OutMsg where
  | conversation_item_create (call_id : String) (output : FuncResult)
  | response_create (modalities : List String) (instructions : String)
  deriving Repr, DecidableEq

/-- Local side effects of `on_message` that do not go out on the socket:
flushing the audio player, and spawning a thread that will enqueue one
decoded chunk (identified by its base64 payload). -/
inductive Effect where
  | flushPlayer
  | spawn_play (delta : String)
  deriving Repr, DecidableEq

/-- The `ChatStreaming` fields `on_message` reads. -/
structure Handler where
  timeline : TimelineState
  instructions : String
  deriving Repr

/-- `ChatStreaming.send_response_create`. -/
def send_response_create (h : Handler) : OutMsg :=
  OutMsg.response_create ["text", "audio"] h.instructions

/-- `ChatStreaming.on_message`, restricted to its observable behaviour: the
ordered list of messages sent on the socket and the local effects.  Print
statements are dropped.  A `function_call_arguments_done` event whose
`arguments` fail to parse sends nothing: `json.loads` raises before the first
`ws.send` and the outer `except` catches it. -/
def on_message (nt : String → String) (h : Handler) (e : InEvent) :
    List OutMsg × List Effect :=
  match e with
  | InEvent.speech_started => ([], [Effect.flushPlayer])
  | InEvent.function_call_arguments_done name arguments call_id =>
      match arguments with
      | none => ([], [])
      | some args =>
          let result := execute_function nt h.timeline name args
          ([OutMsg.conversation_item_create call_id result,
            send_response_create h], [])
  | InEvent.audio_delta delta =>
      if delta = "" then ([], []) else ([], [Effect.spawn_play delta])
  | _ => ([], [])

/-! ### The `AudioPlayer` as a labelled transition system

Atomic steps mirror the lock granularity of the Python code: `flush` holds
`self.lock` for its whole body (drain, `stop_stream`, `start_stream`), the
playback worker's `stream.write` holds the same lock, while the worker's
`audio_queue.get` and `play_audio`'s `audio_queue.put` happen outside the
lock.  Chunks are identified by `Nat` tags. -/

/-- The non-ghost state of an `AudioPlayer`: the FIFO `audio_queue`, the
chunk the worker has popped but not yet written (at most one, since the
worker loop alternates get/write), the ordered log of chunks written to the
device, and whether the stream is active. -/
structure PlayerState where
  queue : List Nat
  held : Option Nat
  written : List Nat
  streamActive : Bool
  deriving Repr, DecidableEq

/-- The player state built by `AudioPlayer.__init__`. -/
def initPlayer : PlayerState :=
  { queue := [], held := none, written := [], streamActive := true }

/-- Device/lock operations, recorded to count how often `flush` stops and
restarts the stream and acquires the lock. -/
inductive DevOp where
  | lockAcquire
  | stopStream
  | startStream
  deriving Repr, DecidableEq

/-- `AudioPlayer.flush`: under one lock acquisition, drain the queue to
empty, then `stop_stream` and `start_stream`.  Returns the new state and the
ordered device/lock operations it performed. -/
def flushPlayer (s : PlayerState) : PlayerState × List DevOp :=
  ({ s with queue := [], streamActive := true },
   [DevOp.lockAcquire, DevOp.stopStream, DevOp.startStream])

/-- Interleaving labels: `enqueue c` is `play_audio`'s `audio_queue.put(c)`;
`pop` is the worker's `audio_queue.get()` (only enabled when the queue is
non-empty and the worker holds nothing — the loop alternates get/write);
`write` is the worker's locked `stream.write` of the held chunk; `flushStep`
is one whole locked `flush` body. -/
inductive PEvent where
  | enqueue (c : Nat)
  | pop
  | write
  | flushStep
  deriving Repr, DecidableEq

/-- One atomic step of the player system.  Disabled labels leave the state
unchanged (they cannot fire in that state). -/
def pstep (s : PlayerState) (e : PEvent) : PlayerState :=
  match e with
  | PEvent.enqueue c => { s with queue := s.queue ++ [c] }
  | PEvent.pop =>
      match s.held, s.queue with
      | none, c :: rest => { s with held := some c, queue := rest }
      | _, _ => s
  | PEvent.write =>
      match s.held with
      | some c => { s with written := s.written ++ [c], held := none }
      | none => s
  | PEvent.flushStep => (flushPlayer s).1

/-- Run a trace of atomic steps from a state. -/
def prun (s : PlayerState) (tr : List PEvent) : PlayerState :=
  match tr with
  | [] => s
  | e :: rest => prun (pstep s e) rest

/-- The chunks enqueued in a trace, in order. -/
def enqueuedIn (tr : List PEvent) : List Nat :=
  match tr with
  | [] => []
  | PEvent.enqueue c :: rest => c :: enqueuedIn rest
  | _ :: rest => enqueuedIn rest

/-- The chunks written to the device strictly after the prefix `pre ++
[flush]`, i.e. after that flush call returned. -/
def writesAfterFlush (pre post : List PEvent) : List Nat :=
  let sf := prun initPlayer (pre ++ [PEvent.flushStep])
  (prun sf post).written.drop sf.written.length

/-- The worker trace that drains `n` chunks: `n` iterations of the
get-then-locked-write loop body. -/
def drainTrace (n : Nat) : List PEvent :=
  match n with
  | 0 => []
  | n + 1 => PEvent.pop :: PEvent.write :: drainTrace n

/-! ### Concrete fixtures, used by the witness theorems -/

/-- Identity stand-in for the abstracted `humanize.naturaltime` pipeline. -/
def ntId : String → String := fun s => s

/-- A concrete post with the given `cid`, display name and text. -/
def mkPost (c dn t : String) : Post :=
  { cid := c, uri := "at://" ++ c,
    author := { handle := "h." ++ c, display_name := dn },
    record := { text := t, created_at := "2024-01-01T00:00:00Z" },
    like_count := 1, repost_count := 2, reply_count := 3, quote_count := 4,
    embed := none }

/-- A concrete non-repost feed view. -/
def mkFv (c dn t : String) : FeedView := { post := mkPost c dn t, reason_by := none }

/-- A three-post feed with pairwise distinct `cid`s. -/
def feed3 : List FeedView := [mkFv "a" "A" "ta", mkFv "b" "B" "tb", mkFv "c" "C" "tc"]

/-- A twenty-post feed. -/
def feed20 : List FeedView := List.replicate 20 (mkFv "x" "D" "t")

/-- A `Timeline` on which `initialize()` has not run. -/
def uninitState : TimelineState :=
  { timeline := [], post_index := [], initialized := false }

/-! ### Helper lemmas -/

/-- `execute_function` always reports either success or error. -/
theorem execute_function_status (nt : String → String) (tl : TimelineState)
    (name : String) (args : List (String × Int)) :
    (execute_function nt tl name args).status = "success"
      ∨ (execute_function nt tl name args).status = "error" := by
  unfold execute_function
  split
  · cases h : get_minimal_posts nt tl (dictGetD args "page" 1) <;> simp [h]
  · split
    · cases h : get_post_detail nt tl (dictGetD args "post_number" 1) <;> simp [h]
    · simp

/-- A key absent from the dict makes `dict.get(key, default)` the default. -/
theorem dictGetD_of_not_mem (args : List (String × Int)) (key : String) (d : Int)
    (h : ∀ v, (key, v) ∉ args) : dictGetD args key d = d := by
  induction args with
  | nil => rfl
  | cons kv rest ih =>
      obtain ⟨k, v⟩ := kv
      have hk : key ≠ k := by
        intro he
        exact h v (by simp [he])
      simp only [dictGetD, if_neg hk]
      exact ih (fun w hw => h w (List.mem_cons_of_mem _ hw))

/-- Singleton-dict lookup of its own key. -/
theorem dictGetD_single (key : String) (v d : Int) :
    dictGetD [(key, v)] key d = v := by
  simp [dictGetD]

/-! ### Claim theorems -/

/-- C1: for every inbound `response.function_call_arguments.done` event that
`ChatStreaming.on_message` processes (i.e. whose `arguments` parse), the
messages sent are exactly one `conversation.item.create` carrying a
`function_call_output` item with that event's `call_id`, followed by exactly
one `response.create`, in that order — whether the function result has
success or error status. -/
theorem C1_function_call_done_sends (nt : String → String) (h : Handler)
    (name : String) (args : List (String × Int)) (call_id : String) :
    (on_message nt h (InEvent.function_call_arguments_done name (some args) call_id)).1
      = [OutMsg.conversation_item_create call_id (execute_function nt h.timeline name args),
         OutMsg.response_create ["text", "audio"] h.instructions]
    ∧ ((execute_function nt h.timeline name args).status = "success"
       ∨ (execute_function nt h.timeline name args).status = "error") :=
  ⟨rfl, execute_function_status nt h.timeline name args⟩

/-- C5: `ChatStreaming.execute_function` is total (never raises): every
result has success or error status, an unrecognized function name yields an
error result naming the unknown function, and an exception raised by either
`Timeline` provider call is caught and converted into an error result
carrying the exception's message. -/
theorem C5_execute_function_never_raises (nt : String → String)
    (tl : TimelineState) (name : String) (args : List (String × Int)) :
    ((execute_function nt tl name args).status = "success"
      ∨ (execute_function nt tl name args).status = "error")
    ∧ (name ≠ "get_page_summary" → name ≠ "get_post_detail" →
        execute_function nt tl name args
          = { status := "error", message := s!"Unknown function: {name}" })
    ∧ (∀ e, name = "get_page_summary" →
        get_minimal_posts nt tl (dictGetD args "page" 1) = Except.error e →
        execute_function nt tl name args = { status := "error", message := e })
    ∧ (∀ e, name = "get_post_detail" →
        get_post_detail nt tl (dictGetD args "post_number" 1) = Except.error e →
        execute_function nt tl name args = { status := "error", message := e }) := by
  refine ⟨execute_function_status nt tl name args, ?_, ?_, ?_⟩
  · intro h1 h2
    simp [execute_function, h1, h2]
  · intro e h1 he
    simp [execute_function, h1, he]
  · intro e h1 he
    have h2 : name ≠ "get_page_summary" := by simp [h1]
    simp [execute_function, h1, h2, he]

/-- Witness for C5: the unknown name `"frobnicate"` yields the error result
naming it, and the uninitialized-timeline exception inside
`get_page_summary` is converted to an error result with its message. -/
theorem C5_witness :
    execute_function ntId uninitState "frobnicate" []
      = { status := "error", message := "Unknown function: frobnicate" }
    ∧ execute_function ntId uninitState "get_page_summary" []
      = { status := "error",
          message := "Timeline not initialized. Call 'initialize()' first." } :=
  ⟨(C5_execute_function_never_raises ntId uninitState "frobnicate" []).2.1
      (by decide) (by decide),
   (C5_execute_function_never_raises ntId uninitState "get_page_summary" []).2.2.1
      "Timeline not initialized. Call 'initialize()' first." rfl (by rfl)⟩

/-- On an initialized timeline, `get_post_detail` returns rather than
raising. -/
theorem get_post_detail_ok (nt : String → String) (s : TimelineState) (p : Int)
    (h : s.initialized = true) :
    ∃ m, get_post_detail nt s p = Except.ok m := by
  unfold get_post_detail
  rw [h]
  cases hf : find_feed_view s p <;> simp

/-- On an initialized timeline, `get_minimal_posts` returns rather than
raising. -/
theorem get_minimal_posts_ok (nt : String → String) (s : TimelineState)
    (page : Int) (h : s.initialized = true) :
    get_minimal_posts nt s page
      = Except.ok (String.intercalate "\n" (minimal_lines nt s page)) := by
  unfold get_minimal_posts
  rw [h]
  simp

/-- C10: when the argument dict omits `"page"` (for `get_page_summary`) or
`"post_number"` (for `get_post_detail`), `execute_function` silently
defaults the missing value to 1 — it behaves exactly as if the value 1 had
been passed — and on an initialized timeline the result has success status,
not error status. -/
theorem C10_missing_args_default_to_one (nt : String → String)
    (tl : TimelineState) (args : List (String × Int))
    (hpage : ∀ v, ("page", v) ∉ args)
    (hpn : ∀ v, ("post_number", v) ∉ args) :
    execute_function nt tl "get_page_summary" args
      = execute_function nt tl "get_page_summary" [("page", 1)]
    ∧ execute_function nt tl "get_post_detail" args
      = execute_function nt tl "get_post_detail" [("post_number", 1)]
    ∧ (∀ feed, tl = initializedState feed →
        (execute_function nt tl "get_page_summary" args).status = "success"
        ∧ (execute_function nt tl "get_post_detail" args).status = "success") := by
  have e1 : dictGetD args "page" 1 = 1 := dictGetD_of_not_mem args "page" 1 hpage
  have e2 : dictGetD args "post_number" 1 = 1 :=
    dictGetD_of_not_mem args "post_number" 1 hpn
  refine ⟨?_, ?_, ?_⟩
  · simp [execute_function, e1, dictGetD_single]
  · simp [execute_function, e2, dictGetD_single]
  · intro feed hfeed
    constructor
    · simp [execute_function, e1, hfeed, get_minimal_posts, initializedState]
    · obtain ⟨m, hm⟩ := get_post_detail_ok nt tl 1 (by rw [hfeed]; rfl)
      simp [execute_function, e2, hm]

/-- Witness for C10: with an empty argument dict and the three-post feed,
both calls default to 1 and succeed. -/
theorem C10_witness :
    execute_function ntId (initializedState feed3) "get_page_summary" []
      = execute_function ntId (initializedState feed3) "get_page_summary" [("page", 1)]
    ∧ (execute_function ntId (initializedState feed3) "get_post_detail" []).status
      = "success" :=
  ⟨(C10_missing_args_default_to_one ntId (initializedState feed3) []
      (by simp) (by simp)).1,
   ((C10_missing_args_default_to_one ntId (initializedState feed3) []
      (by simp) (by simp)).2.2 feed3 rfl).2⟩

/-- C8: a `post_number` with no entry in the post index makes
`Timeline.get_post_detail` return (not raise) the string
`"No post found with number {n}."`, which `execute_function` wraps as a
result with status `"success"`, not `"error"`. -/
theorem C8_missing_post_is_success (nt : String → String) (s : TimelineState)
    (n : Int) (hinit : s.initialized = true)
    (hmiss : indexGet s.post_index n = none) :
    get_post_detail nt s n = Except.ok s!"No post found with number {n}."
    ∧ execute_function nt s "get_post_detail" [("post_number", n)]
      = { status := "success", message := s!"No post found with number {n}." } := by
  have hfind : find_feed_view s n = none := by
    simp [find_feed_view, hmiss]
  have hdet : get_post_detail nt s n = Except.ok s!"No post found with number {n}." := by
    simp [get_post_detail, hinit, hfind]
  refine ⟨hdet, ?_⟩
  simp [execute_function, dictGetD_single, hdet]

/-- Witness for C8: post number 999 on the initialized three-post feed. -/
theorem C8_witness :
    get_post_detail ntId (initializedState feed3) 999
      = Except.ok "No post found with number 999."
    ∧ execute_function ntId (initializedState feed3) "get_post_detail"
        [("post_number", 999)]
      = { status := "success", message := "No post found with number 999." } :=
  C8_missing_post_is_success ntId (initializedState feed3) 999 rfl (by decide)

/-- C4: one `AudioPlayer.flush` call with `n` items pending and no
concurrent enqueue leaves the queue empty and performs, in order and under a
single lock acquisition, exactly one device stop and exactly one device
restart. -/
theorem C4_flush_drains_stops_starts_once (s : PlayerState) (n : Nat)
    (hn : s.queue.length = n) :
    (flushPlayer s).1.queue.length = 0
    ∧ (flushPlayer s).2 = [DevOp.lockAcquire, DevOp.stopStream, DevOp.startStream]
    ∧ (flushPlayer s).2.count DevOp.stopStream = 1
    ∧ (flushPlayer s).2.count DevOp.startStream = 1
    ∧ (flushPlayer s).2.count DevOp.lockAcquire = 1 := by
  refine ⟨rfl, rfl, ?_, ?_, ?_⟩ <;> rfl

/-- Witness for C4: flushing with three pending items. -/
theorem C4_witness :
    ({ initPlayer with queue := [11, 12, 13] } : PlayerState).queue.length = 3
    ∧ (flushPlayer { initPlayer with queue := [11, 12, 13] }).1.queue.length = 0
    ∧ (flushPlayer { initPlayer with queue := [11, 12, 13] }).2.count DevOp.stopStream = 1 :=
  ⟨by decide,
   (C4_flush_drains_stops_starts_once { initPlayer with queue := [11, 12, 13] } 3 rfl).1,
   (C4_flush_drains_stops_starts_once { initPlayer with queue := [11, 12, 13] } 3 rfl).2.2.1⟩

/-- C7: `AudioPlayer.flush` is idempotent: a second flush with no
intervening enqueue changes nothing — the player state after the second call
equals the state after the first, the queue is empty, and neither call
writes any audio to the device (and, being total, neither raises). -/
theorem C7_flush_idempotent (s : PlayerState) :
    (flushPlayer (flushPlayer s).1).1 = (flushPlayer s).1
    ∧ (flushPlayer s).1.queue = []
    ∧ (flushPlayer s).1.written = s.written
    ∧ (flushPlayer (flushPlayer s).1).1.written = s.written :=
  ⟨rfl, rfl, rfl, rfl⟩

/-! ### Trace lemmas for the player transition system -/

/-- Running a concatenated trace runs the pieces in sequence. -/
theorem prun_append (s : PlayerState) (a b : List PEvent) :
    prun s (a ++ b) = prun (prun s a) b := by
  induction a generalizing s with
  | nil => rfl
  | cons e rest ih => exact ih (pstep s e)

/-- The chunks enqueued along a cons trace. -/
theorem enqueuedIn_cons (e : PEvent) (rest : List PEvent) :
    enqueuedIn (e :: rest) = enqueuedIn [e] ++ enqueuedIn rest := by
  cases e <;> simp [enqueuedIn]

/-- One atomic step: whatever it appends to the written log was held, the
held chunk afterwards was held before or came from the queue, and the queue
afterwards only holds chunks that were queued before or enqueued by this
step. -/
theorem pstep_sources (s : PlayerState) (e : PEvent) :
    (∃ w, (pstep s e).written = s.written ++ w ∧ ∀ c ∈ w, s.held = some c)
    ∧ (∀ c, (pstep s e).held = some c → s.held = some c ∨ c ∈ s.queue)
    ∧ (∀ c, c ∈ (pstep s e).queue → c ∈ s.queue ∨ c ∈ enqueuedIn [e]) := by
  obtain ⟨q, hld, w, a⟩ := s
  cases e with
  | enqueue c0 =>
      refine ⟨⟨[], by simp [pstep], by simp⟩, fun c h => Or.inl h, fun c h => ?_⟩
      have h2 : c ∈ q ++ [c0] := h
      simp only [enqueuedIn]
      rcases List.mem_append.mp h2 with h3 | h3
      · exact Or.inl h3
      · exact Or.inr (by simpa using h3)
  | pop =>
      cases hld with
      | some c1 =>
          cases q with
          | nil =>
              exact ⟨⟨[], by simp [pstep], by simp⟩,
                fun c h => Or.inl h, fun c h => Or.inl h⟩
          | cons c2 t =>
              exact ⟨⟨[], by simp [pstep], by simp⟩,
                fun c h => Or.inl h, fun c h => Or.inl h⟩
      | none =>
          cases q with
          | nil =>
              exact ⟨⟨[], by simp [pstep], by simp⟩,
                fun c h => Or.inl h, fun c h => Or.inl h⟩
          | cons c2 t =>
              refine ⟨⟨[], by simp [pstep], by simp⟩, fun c h => ?_, fun c h => ?_⟩
              · have h2 : some c2 = some c := h
                have h3 : c2 = c := by simpa using h2
                exact Or.inr (by simp [← h3])
              · have h2 : c ∈ t := h
                exact Or.inl (List.mem_cons_of_mem _ h2)
  | write =>
      cases hld with
      | none =>
          exact ⟨⟨[], by simp [pstep], by simp⟩,
            fun c h => Or.inl h, fun c h => Or.inl h⟩
      | some c1 =>
          refine ⟨⟨[c1], by simp [pstep], fun c h => ?_⟩, fun c h => ?_, fun c h => Or.inl h⟩
          · have h2 : c = c1 := by simpa using h
            simp [h2]
          · have h2 : (none : Option Nat) = some c := h
            exact absurd h2 (by simp)
  | flushStep =>
      refine ⟨⟨[], by simp [pstep, flushPlayer], by simp⟩,
        fun c h => Or.inl h, fun c h => ?_⟩
      have h2 : c ∈ ([] : List Nat) := h
      exact absurd h2 (by simp)

/-- Every chunk the system writes along a trace comes from the worker's held
chunk, the queue, or an enqueue in the trace: the written log only grows,
and each appended chunk has one of those three sources. -/
theorem prun_written_sources (tr : List PEvent) (s : PlayerState) :
    ∃ d, (prun s tr).written = s.written ++ d
      ∧ ∀ c ∈ d, s.held = some c ∨ c ∈ s.queue ∨ c ∈ enqueuedIn tr := by
  induction tr generalizing s with
  | nil => exact ⟨[], by simp [prun], by simp⟩
  | cons e rest ih =>
      obtain ⟨d, hd, hsrc⟩ := ih (pstep s e)
      obtain ⟨⟨w, hw, hwsrc⟩, hheld, hqueue⟩ := pstep_sources s e
      refine ⟨w ++ d, ?_, ?_⟩
      · show (prun (pstep s e) rest).written = s.written ++ (w ++ d)
        rw [hd, hw, List.append_assoc]
      · intro c hc
        rw [enqueuedIn_cons]
        rcases List.mem_append.mp hc with h | h
        · exact Or.inl (hwsrc c h)
        · rcases hsrc c h with h2 | h2 | h2
          · rcases hheld c h2 with h3 | h3
            · exact Or.inl h3
            · exact Or.inr (Or.inl h3)
          · rcases hqueue c h2 with h3 | h3
            · exact Or.inr (Or.inl h3)
            · exact Or.inr (Or.inr (List.mem_append.mpr (Or.inl h3)))
          · exact Or.inr (Or.inr (List.mem_append.mpr (Or.inr h2)))

/-- A flush body preserves `held` and `written` and empties the queue. -/
theorem pstep_flush (s : PlayerState) :
    pstep s PEvent.flushStep
      = { queue := [], held := s.held, written := s.written,
          streamActive := true } := rfl

/-- C2, corrected: after `AudioPlayer.flush` returns, every chunk that is
subsequently written to the device is either a chunk enqueued after the
flush, or the single chunk the playback worker had already popped from the
queue before the flush ran (the worker's `audio_queue.get` happens outside
the lock, so it can hold one stale pre-flush chunk and write it after flush
returns).  In particular every chunk still in the queue when flush drained
it is never written afterwards. -/
theorem C2_amended_writes_after_flush (pre post : List PEvent) (c : Nat)
    (hc : c ∈ writesAfterFlush pre post) :
    (prun initPlayer pre).held = some c ∨ c ∈ enqueuedIn post := by
  simp only [writesAfterFlush] at hc
  rw [prun_append] at hc
  rw [show prun (prun initPlayer pre) [PEvent.flushStep]
      = pstep (prun initPlayer pre) PEvent.flushStep from rfl] at hc
  rw [pstep_flush] at hc
  obtain ⟨d, hd, hsrc⟩ := prun_written_sources post
    { queue := [], held := (prun initPlayer pre).held,
      written := (prun initPlayer pre).written, streamActive := true }
  rw [hd] at hc
  simp only [List.drop_left] at hc
  rcases hsrc c hc with h | h | h
  · exact Or.inl h
  · simp at h
  · exact Or.inr h

/-- Witness for C2's amended statement: the worker pops chunk 7 before the
flush, then writes it after flush returns. -/
theorem C2_amended_witness :
    7 ∈ writesAfterFlush [PEvent.enqueue 7, PEvent.pop] [PEvent.write]
    ∧ ((prun initPlayer [PEvent.enqueue 7, PEvent.pop]).held = some 7
       ∨ 7 ∈ enqueuedIn [PEvent.write]) :=
  ⟨by decide,
   C2_amended_writes_after_flush [PEvent.enqueue 7, PEvent.pop] [PEvent.write] 7
     (by decide)⟩

/-- C2, counterexample: it is not true that once flush has returned no chunk
enqueued before the speech-started event is ever written.  Concretely, chunk
7 is enqueued and popped by the worker before the flush; the flush runs to
completion and returns; then the worker's locked write still writes chunk 7
to the device. -/
theorem C2_counterexample :
    ¬ (∀ (pre post : List PEvent) (c : Nat),
        c ∈ enqueuedIn pre → c ∉ writesAfterFlush pre post) := by
  intro hclaim
  exact hclaim [PEvent.enqueue 7, PEvent.pop] [PEvent.write] 7
    (by decide) (by decide)

/-- Enqueue steps only append to the queue. -/
theorem prun_enqueues (l : List Nat) (s : PlayerState) :
    prun s (l.map PEvent.enqueue) = { s with queue := s.queue ++ l } := by
  induction l generalizing s with
  | nil => simp [prun]
  | cons c rest ih =>
      show prun (pstep s (PEvent.enqueue c)) (rest.map PEvent.enqueue) = _
      rw [show pstep s (PEvent.enqueue c) = { s with queue := s.queue ++ [c] } from rfl]
      rw [ih]
      simp

/-- The worker's get/write loop drains the queue into the written log in
FIFO order. -/
theorem prun_drain (q : List Nat) (t : PlayerState) (ht : t.held = none)
    (hq : t.queue = q) :
    prun t (drainTrace q.length)
      = { queue := [], held := none, written := t.written ++ q,
          streamActive := t.streamActive } := by
  induction q generalizing t with
  | nil =>
      obtain ⟨tq, th, tw, ta⟩ := t
      simp only at ht hq
      subst ht hq
      simp [drainTrace, prun]
  | cons c rest ih =>
      show prun t (PEvent.pop :: PEvent.write :: drainTrace rest.length) = _
      show prun (pstep (pstep t PEvent.pop) PEvent.write) (drainTrace rest.length) = _
      have h1 : pstep t PEvent.pop
          = { queue := rest, held := some c, written := t.written,
              streamActive := t.streamActive } := by
        simp [pstep, ht, hq]
      rw [h1]
      have h2 : pstep
          ({ queue := rest, held := some c, written := t.written,
             streamActive := t.streamActive } : PlayerState) PEvent.write
          = { queue := rest, held := none, written := t.written ++ [c],
              streamActive := t.streamActive } := rfl
      rw [h2]
      rw [ih { queue := rest, held := none, written := t.written ++ [c],
               streamActive := t.streamActive } rfl rfl]
      simp

/-- Enqueue the chunks of `l` in order onto a workerless-idle player, then
let the worker drain: the device receives exactly `l`, in enqueue order. -/
theorem prun_enqueue_then_drain (l : List Nat) (s : PlayerState)
    (hheld : s.held = none) :
    prun s (l.map PEvent.enqueue ++ drainTrace (s.queue ++ l).length)
      = { queue := [], held := none, written := s.written ++ (s.queue ++ l),
          streamActive := s.streamActive } := by
  rw [prun_append, prun_enqueues]
  exact prun_drain (s.queue ++ l)
    { s with queue := s.queue ++ l } (by simpa using hheld) rfl

/-- C3, amended: the single playback worker drains the FIFO queue in order,
so chunks are written to the device in exactly the order they were
*enqueued*; but because each `response.audio.delta` event's decode-and-
enqueue runs on its own spawned thread, the enqueue order — and hence the
playback order — need not match the order the events arrived. -/
theorem C3_amended_fifo_playback (sched : List Nat) :
    (prun initPlayer (sched.map PEvent.enqueue ++ drainTrace sched.length)).written
      = sched := by
  have h := prun_enqueue_then_drain sched initPlayer rfl
  rw [show (initPlayer.queue ++ sched) = sched from rfl] at h
  rw [h]
  simp [initPlayer]

/-- C3, counterexample: it is not true that for every arrival order and
every order in which the spawned per-delta threads perform their enqueues
(any permutation of the arrivals), the chunks reach the device in arrival
order.  Concretely, deltas 1 then 2 arrive, the two spawned threads enqueue
in the order 2 then 1, and the device receives 2 before 1. -/
theorem C3_counterexample :
    ¬ (∀ (arrivals sched : List Nat), sched.Perm arrivals →
        (prun initPlayer (sched.map PEvent.enqueue ++ drainTrace sched.length)).written
          = arrivals) := by
  intro hclaim
  have h := hclaim [1, 2] [2, 1] (by decide)
  revert h
  decide

/-! ### Python slice arithmetic -/

/-- Closed form of the slice-bound resolution. -/
theorem pyBound_eq (len : Nat) (i : Int) :
    pyBound len i = min (if i < 0 then i + len else i).toNat len := by
  simp only [pyBound]
  split_ifs <;> omega

/-- An index that hits the slice lies strictly between the resolved bounds,
and the slice element is the underlying list's element at the shifted
position. -/
theorem getElem?_pySlice_some {α : Type} (l : List α) (a b : Int) (i : Nat)
    (x : α) (h : (pySlice l a b)[i]? = some x) :
    pyBound l.length a + i < pyBound l.length b
    ∧ l[pyBound l.length a + i]? = some x := by
  simp only [pySlice, List.getElem?_take] at h
  split at h
  · rw [List.getElem?_drop] at h
    refine ⟨by omega, h⟩
  · exact absurd h (by simp)

/-- Labels on each line of a page summary, as one `getElem?` equation. -/
theorem minimal_lines_getElem? (nt : String → String) (s : TimelineState)
    (page : Int) (i : Nat) :
    (minimal_lines nt s page)[i]?
      = ((pySlice s.timeline ((page - 1) * 10) ((page - 1) * 10 + 10))[i]?).map
          (fun fv => format_minimal_post nt fv ((page - 1) * 10 + (i : Int) + 1)) := by
  simp only [minimal_lines, List.getElem?_map, List.getElem?_enum]
  cases h : (pySlice s.timeline ((page - 1) * 10) ((page - 1) * 10 + 10))[i]? <;>
    simp [h]

/-- C9: on an initialized timeline, `Timeline.get_minimal_posts` returns
without raising for every integer page; page 0 resolves to the empty slice
`timeline[-10:0]` and yields the empty string; for every page ≤ 0 each
returned line is labeled with a non-positive post number; and for the
negative page -1 on a timeline of at least 20 posts the lines are drawn from
the end-relative slice `timeline[-20:-10]`, i.e. positions `len-20 ..
len-11`, labeled -19 .. -10. -/
theorem C9_negative_pages (nt : String → String) (feed : List FeedView)
    (page : Int) :
    get_minimal_posts nt (initializedState feed) page
      = Except.ok (String.intercalate "\n" (minimal_lines nt (initializedState feed) page))
    ∧ get_minimal_posts nt (initializedState feed) 0 = Except.ok ""
    ∧ (page ≤ 0 → ∀ (i : Nat) (line : String),
        (minimal_lines nt (initializedState feed) page)[i]? = some line →
        ∃ fv, feed[pyBound feed.length ((page - 1) * 10) + i]? = some fv
          ∧ line = format_minimal_post nt fv ((page - 1) * 10 + (i : Int) + 1)
          ∧ (page - 1) * 10 + (i : Int) + 1 ≤ 0)
    ∧ (20 ≤ feed.length →
        minimal_lines nt (initializedState feed) (-1)
          = ((feed.drop (feed.length - 20)).take 10).enum.map
              (fun p => format_minimal_post nt p.2 (-20 + (p.1 : Int) + 1))) := by
  have htl : (initializedState feed).timeline = feed := rfl
  refine ⟨get_minimal_posts_ok nt (initializedState feed) page rfl, ?_, ?_, ?_⟩
  · rw [get_minimal_posts_ok nt (initializedState feed) 0 rfl]
    have hml : minimal_lines nt (initializedState feed) 0 = [] := by
      have he : pyBound feed.length ((0 - 1) * 10 + 10) = 0 := by
        rw [pyBound_eq]
        omega
      simp only [minimal_lines, pySlice, htl, he, Nat.zero_sub, List.take_zero,
        List.enum_nil, List.map_nil]
    rw [hml]
    rfl
  · intro hp i line hline
    rw [minimal_lines_getElem?] at hline
    rw [htl] at hline
    cases hsl : (pySlice feed ((page - 1) * 10) ((page - 1) * 10 + 10))[i]? with
    | none => rw [hsl] at hline; exact absurd hline (by simp)
    | some fv =>
        rw [hsl] at hline
        simp only [Option.map_some', Option.some.injEq] at hline
        obtain ⟨hlt, hfeed⟩ := getElem?_pySlice_some feed _ _ i fv hsl
        refine ⟨fv, hfeed, hline.symm, ?_⟩
        rw [pyBound_eq, pyBound_eq] at hlt
        split_ifs at hlt <;> omega
  · intro h20
    have hs : pyBound feed.length ((-1 - 1) * 10) = feed.length - 20 := by
      rw [pyBound_eq]
      omega
    have he : pyBound feed.length ((-1 - 1) * 10 + 10) = feed.length - 10 := by
      rw [pyBound_eq]
      omega
    have hlen : pyBound feed.length ((-1 - 1) * 10 + 10)
        - pyBound feed.length ((-1 - 1) * 10) = 10 := by
      rw [hs, he]
      omega
    simp only [minimal_lines, pySlice, htl, hs, he]
    rw [show feed.length - 10 - (feed.length - 20) = 10 from by omega]
    have harg : ∀ p : Nat × FeedView,
        format_minimal_post nt p.2 ((-1 - 1) * 10 + (p.1 : Int) + 1)
          = format_minimal_post nt p.2 (-20 + (p.1 : Int) + 1) := by
      intro p
      norm_num
    exact List.map_congr_left (fun p _ => harg p)

set_option maxRecDepth 10000 in
/-- Witness for C9: a 20-post feed; page 0 yields the empty string, and page
-1 yields the last-20-to-last-11 posts labeled -19 downwards. -/
theorem C9_witness :
    get_minimal_posts ntId (initializedState feed20) (-1)
      = Except.ok (String.intercalate "\n" (minimal_lines ntId (initializedState feed20) (-1)))
    ∧ get_minimal_posts ntId (initializedState feed20) 0 = Except.ok ""
    ∧ (∃ fv, feed20[pyBound feed20.length ((-1 - 1) * 10) + 0]? = some fv
        ∧ format_minimal_post ntId (mkFv "x" "D" "t") ((-1 - 1) * 10 + ((0 : Nat) : Int) + 1)
            = format_minimal_post ntId fv ((-1 - 1) * 10 + ((0 : Nat) : Int) + 1)
        ∧ (-1 - 1) * 10 + ((0 : Nat) : Int) + 1 ≤ 0)
    ∧ minimal_lines ntId (initializedState feed20) (-1)
        = ((feed20.drop (feed20.length - 20)).take 10).enum.map
            (fun p => format_minimal_post ntId p.2 (-20 + (p.1 : Int) + 1)) :=
  ⟨(C9_negative_pages ntId feed20 (-1)).1,
   (C9_negative_pages ntId feed20 (-1)).2.1,
   (C9_negative_pages ntId feed20 (-1)).2.2.1 (by norm_num) 0
     (format_minimal_post ntId (mkFv "x" "D" "t") ((-1 - 1) * 10 + ((0 : Nat) : Int) + 1))
     (by rfl),
   (C9_negative_pages ntId feed20 (-1)).2.2.2 (by decide)⟩

/-! ### Post-index lookup -/

/-- Looking up position `j`'s number in an index built from offset `n`. -/
theorem indexGet_build_aux (feed : List FeedView) (n j : Nat) (fv : FeedView)
    (h : feed[j]? = some fv) :
    indexGet ((List.enumFrom n feed).map
        (fun p => ((p.1 : Int) + 1, p.2.post.cid, p.2.post.uri)))
      ((n : Int) + (j : Int) + 1)
      = some (fv.post.cid, fv.post.uri) := by
  induction feed generalizing n j with
  | nil => simp at h
  | cons fv0 rest ih =>
      rw [List.enumFrom_cons]
      cases j with
      | zero =>
          obtain rfl : fv0 = fv := by simpa using h
          simp only [List.map_cons, indexGet]
          rw [if_pos (by omega)]
      | succ j1 =>
          rw [List.getElem?_cons_succ] at h
          simp only [List.map_cons, indexGet]
          rw [if_neg (by push_cast; omega)]
          have hkey : (n : Int) + ((j1 + 1 : Nat) : Int) + 1
              = ((n + 1 : Nat) : Int) + (j1 : Int) + 1 := by push_cast; ring
          rw [hkey]
          exact ih (n + 1) j1 h

/-- `build_post_index` maps the number `j + 1` to the `cid`/`uri` of the
feed's `j`-th post. -/
theorem indexGet_build (feed : List FeedView) (j : Nat) (fv : FeedView)
    (h : feed[j]? = some fv) :
    indexGet (build_post_index feed) ((j : Int) + 1)
      = some (fv.post.cid, fv.post.uri) := by
  have haux := indexGet_build_aux feed 0 j fv h
  rw [show ((0 : Nat) : Int) + (j : Int) + 1 = (j : Int) + 1 by push_cast; ring] at haux
  exact haux

/-- C6: after one timeline fetch, every post number `k` shown on the page-1
summary (`1 ≤ k ≤ min 10 len`) resolves through the post index to a feed
view whose post is the very post summarized as number `k` — provided the
timeline's `cid`s identify posts (which holds for atproto content
identifiers): `get_post_detail k` formats a feed view with the same post,
in particular the same author and text, as the page-1 line numbered `k`. -/
theorem C6_detail_matches_page1_summary (nt : String → String)
    (feed : List FeedView) (k : Nat)
    (hcid : ∀ fv1 ∈ feed, ∀ fv2 ∈ feed,
      fv1.post.cid = fv2.post.cid → fv1.post = fv2.post)
    (hk1 : 1 ≤ k) (hk : k ≤ min 10 feed.length) :
    ∃ fv0 fv,
      feed[k - 1]? = some fv0
      ∧ find_feed_view (initializedState feed) (k : Int) = some fv
      ∧ fv.post = fv0.post
      ∧ get_post_detail nt (initializedState feed) (k : Int)
          = Except.ok (String.intercalate "\n" (format_detailed_post nt fv))
      ∧ (minimal_lines nt (initializedState feed) 1)[k - 1]?
          = some (format_minimal_post nt fv0 (k : Int))
      ∧ fv.post.author = fv0.post.author
      ∧ fv.post.record.text = fv0.post.record.text := by
  have hklen : k - 1 < feed.length := by omega
  obtain ⟨fv0, hget⟩ : ∃ fv0, feed[k - 1]? = some fv0 := by
    rw [List.getElem?_eq_getElem hklen]
    exact ⟨_, rfl⟩
  have hmem0 : fv0 ∈ feed := List.getElem?_mem hget
  have hidx : indexGet (initializedState feed).post_index (k : Int)
      = some (fv0.post.cid, fv0.post.uri) := by
    have := indexGet_build feed (k - 1) fv0 hget
    rw [show ((k - 1 : Nat) : Int) + 1 = (k : Int) by omega] at this
    exact this
  have hffexpr : find_feed_view (initializedState feed) (k : Int)
      = feed.find? (fun fv => fv.post.cid == fv0.post.cid) := by
    rw [find_feed_view, hidx]
    rfl
  have hex : ∃ x ∈ feed, (fun fv => fv.post.cid == fv0.post.cid) x = true :=
    ⟨fv0, hmem0, by simp⟩
  obtain ⟨fv, hfind⟩ := Option.isSome_iff_exists.mp (List.find?_isSome.mpr hex)
  have hcideq : fv.post.cid = fv0.post.cid := by
    have := List.find?_some hfind
    simpa using this
  have hmem : fv ∈ feed := List.mem_of_find?_eq_some hfind
  have hpost : fv.post = fv0.post := hcid fv hmem fv0 hmem0 hcideq
  have hffv : find_feed_view (initializedState feed) (k : Int) = some fv := by
    rw [hffexpr]
    exact hfind
  have hdet : get_post_detail nt (initializedState feed) (k : Int)
      = Except.ok (String.intercalate "\n" (format_detailed_post nt fv)) := by
    rw [get_post_detail]
    rw [show (initializedState feed).initialized = true from rfl]
    rw [hffv]
    rfl
  have hs0 : pyBound feed.length ((1 - 1) * 10) = 0 := by
    rw [pyBound_eq]
    omega
  have he10 : pyBound feed.length ((1 - 1) * 10 + 10) = min 10 feed.length := by
    rw [pyBound_eq]
    omega
  have hml : (minimal_lines nt (initializedState feed) 1)[k - 1]?
      = some (format_minimal_post nt fv0 (k : Int)) := by
    rw [minimal_lines_getElem?]
    have htl : (initializedState feed).timeline = feed := rfl
    rw [htl]
    have hslice : (pySlice feed ((1 - 1) * 10) ((1 - 1) * 10 + 10))[k - 1]?
        = some fv0 := by
      simp only [pySlice, hs0, he10, List.drop_zero, Nat.sub_zero,
        List.getElem?_take]
      rw [if_pos (by omega)]
      exact hget
    rw [hslice]
    simp only [Option.map_some', Option.some.injEq]
    rw [show ((1 : Int) - 1) * 10 + ((k - 1 : Nat) : Int) + 1 = (k : Int) by
      push_cast [Nat.cast_sub hk1]
      ring]
  exact ⟨fv0, fv, hget, hffv, hpost, hdet, hml,
    by rw [hpost], by rw [hpost]⟩

/-- Witness for C6: the three-post feed with distinct `cid`s and `k = 2`. -/
theorem C6_witness :
    ((∀ fv1 ∈ feed3, ∀ fv2 ∈ feed3,
        fv1.post.cid = fv2.post.cid → fv1.post = fv2.post)
     ∧ 1 ≤ 2 ∧ 2 ≤ min 10 feed3.length)
    ∧ ∃ fv0 fv,
        feed3[2 - 1]? = some fv0
        ∧ find_feed_view (initializedState feed3) ((2 : Nat) : Int) = some fv
        ∧ fv.post = fv0.post
        ∧ get_post_detail ntId (initializedState feed3) ((2 : Nat) : Int)
            = Except.ok (String.intercalate "\n" (format_detailed_post ntId fv))
        ∧ (minimal_lines ntId (initializedState feed3) 1)[2 - 1]?
            = some (format_minimal_post ntId fv0 ((2 : Nat) : Int))
        ∧ fv.post.author = fv0.post.author
        ∧ fv.post.record.text = fv0.post.record.text :=
  ⟨⟨by decide, by decide, by decide⟩,
   C6_detail_matches_page1_summary ntId feed3 2 (by decide) (by decide) (by decide)⟩

end Skycap
